import Mathlib

/-!
# Verification of the `ec2-ip` instance picker (src/main.rs)

A shallow embedding of the instance-discovery pipeline of `src/main.rs`:
the filter-string parser, the paginated instance fetcher `get_instances`,
the deduplicating aggregation into a `HashMap<String, Instance>`, the
presentation-line renderer, and the selection/printing loop.  Rust's
`Option<T>` becomes `Option`, `Result<T, E>` becomes `Except`, and the
provider (`Ec2Client::describe_instances`) is modelled as the sequence of
responses it serves, one per issued request.
-/

namespace Ec2Ip

/-- A key/value tag as returned by the provider (`rusoto_ec2::Tag`):
both fields are optional. -/
structure Tag where
  key : Option String
  value : Option String
  deriving DecidableEq, Repr

/-- The fields of `rusoto_ec2::Instance` that `main.rs` reads: the
identity string, the tag list and the two network addresses, all optional. -/
structure Instance where
  instanceId : Option String
  tags : Option (List Tag)
  publicIpAddress : Option String
  privateIpAddress : Option String
  deriving DecidableEq, Repr

/-- `rusoto_ec2::Filter`: an optional name and an optional value list. -/
structure Filter where
  name : Option String
  values : Option (List String)
  deriving DecidableEq, Repr

/-- One reservation of a `DescribeInstances` page: an optional instance list. -/
structure Reservation where
  instances : Option (List Instance)
  deriving DecidableEq, Repr

/-- One `DescribeInstances` response page: optional reservations and the
optional continuation token (`next_token`). -/
structure Page where
  reservations : Option (List Reservation)
  nextToken : Option String
  deriving DecidableEq, Repr

/-! ## String splitting

`main.rs` splits filter strings with Rust's `str::split` on the single
characters `;`, `=` and `,`.  We model that splitting on character lists:
`"".split(c)` yields `[""]`, and every occurrence of the separator opens a
new (possibly empty) segment. -/

/-- Rust's `s.split(c)` on a character list: always returns at least one
segment; each occurrence of `c` starts a new segment. -/
def splitOnCh (c : Char) : List Char → List (List Char)
  | [] => [[]]
  | x :: xs =>
    match splitOnCh c xs with
    | [] => [[]]
    | g :: gs => if x = c then [] :: g :: gs else (x :: g) :: gs

/-- Split a `String` on a character, Rust-style. -/
def splitStr (c : Char) (s : String) : List String :=
  (splitOnCh c s.toList).map List.asString

/-- Joining with the separator, used only to state the spec's reading of
clause parsing ("everything after the first `=`"). -/
def joinCh (c : Char) : List (List Char) → List Char
  | [] => []
  | [g] => g
  | g :: gs => g ++ c :: joinCh c gs

/-! ## Filter Spec Parser (`main.rs` lines 100–135) -/

/-- The implicit filter every group is seeded with
(`instance-state-name = running`, lines 105–108 and 130–133). -/
def runningFilter : Filter :=
  { name := some "instance-state-name", values := some ["running"] }

/-- One semicolon-separated clause, parsed as `main.rs` lines 110–125 does:
split on every `=`; the first segment is the name; the value list is the
comma-split of the second segment when one exists (segments after the
second `=` are discarded by `parts[0]` after `parts.remove(0)`). -/
def parseClause (clause : String) : Filter :=
  match splitStr '=' clause with
  | [] => { name := none, values := none }
  | n :: rest =>
    { name := some n
      values :=
        match rest with
        | [] => none
        | v :: _ => some (splitStr ',' v) }

/-- One raw `--filter` string becomes one group: the implicit running
filter followed by one filter per semicolon-separated clause. -/
def parseFilterString (s : String) : List Filter :=
  runningFilter :: (splitStr ';' s).map parseClause

/-- The whole parser (lines 100–135): one group per raw string, or the
single implicit group when no `--filter` was supplied (`values_of` is
`None`). -/
def parseFilters (raw : Option (List String)) : List (List Filter) :=
  match raw with
  | some strs => strs.map parseFilterString
  | none => [[runningFilter]]

/-- Modelled from the spec's words for claim C5 only, NOT from the code:
"the first `=` in the clause splits the filter name from a comma-separated
value list (so all text after the first `=`, including further `=`
characters, belongs to the value list)".  Used solely to compare against
`parseClause`. -/
def specParseClause (clause : String) : Filter :=
  match splitOnCh '=' clause.toList with
  | [] => { name := none, values := none }
  | [n] => { name := some n.asString, values := none }
  | n :: rest =>
    { name := some n.asString
      values := some ((splitOnCh ',' (joinCh '=' rest)).map List.asString) }

/-! ## Instance Fetcher (`get_instances`, `main.rs` lines 14–57)

The provider is modelled as the list of responses it serves, in request
order: each issued `describe_instances` call consumes the next element.
The `while first || input.next_token.is_some()` loop becomes structural
recursion on that list: the head response is consumed, its reservations
are flattened in, and the loop re-enters exactly when the page carried a
continuation token. -/

/-- Flatten one reservation's optional instance list (lines 44–48). -/
def flattenReservation (r : Reservation) : List Instance :=
  match r.instances with
  | some is => is
  | none => []

/-- Flatten one page's reservation nesting (lines 42–50). -/
def flattenPage (p : Page) : List Instance :=
  match p.reservations with
  | some rs => rs.flatMap flattenReservation
  | none => []

/-- The pagination loop of `get_instances` (lines 34–54) driven by the
provider's response sequence.  An `Except.error` response is the
`Err(err)` arm of line 39 and aborts with the provider's detail string;
an `ok` page contributes its flattened instances and the loop continues
exactly when `next_token` is `Some`. -/
def fetchLoop : List (Except String Page) → Except String (List Instance)
  | [] => Except.ok []
  | r :: rest =>
    match r with
    | Except.error e => Except.error e
    | Except.ok page =>
      match page.nextToken with
      | none => Except.ok (flattenPage page)
      | some _ => (fetchLoop rest).map (fun tl => flattenPage page ++ tl)

/-- How many `describe_instances` requests the loop issues before it
stops (one per consumed response). -/
def requestCount : List (Except String Page) → Nat
  | [] => 0
  | r :: rest =>
    match r with
    | Except.error _ => 1
    | Except.ok page =>
      match page.nextToken with
      | none => 1
      | some _ => 1 + requestCount rest

/-- The error type of `get_instances`.  The Rust code returns bare
strings; the two `return Err` sites (line 20: `"Invalid region name"`,
line 39: the provider's error detail) are the spec's two error kinds and
are kept apart as constructors. -/
inductive FetchError where
  | invalidRegion
  | queryFailed (detail : String)
  deriving DecidableEq, Repr

/-- `get_instances` (lines 14–57): `regionOk` is whether
`region_name.parse()` succeeded (line 18); on failure the fetch aborts
with `invalidRegion` before any request is issued; otherwise the
pagination loop runs and a failing page request surfaces as
`queryFailed` with the provider's detail. -/
def getInstances (regionOk : Bool) (responses : List (Except String Page)) :
    Except FetchError (List Instance) :=
  if regionOk then
    match fetchLoop responses with
    | Except.error d => Except.error (FetchError.queryFailed d)
    | Except.ok l => Except.ok l
  else Except.error FetchError.invalidRegion

/-! ## Aggregator (`main.rs` lines 137–152)

`all_instances : HashMap<String, Instance>` is modelled as an association
list with unique keys; `insert` overwrites the entry in place when the
key is present and appends otherwise, which preserves exactly the
content-level behaviour of the hash map (the claims never depend on the
hash map's unspecified iteration order).  -/

/-- The Instance Universe: identity string to record, keys unique. -/
def Universe := List (String × Instance)

/-- `HashMap::insert`: overwrite the entry holding `k` in place, or
append a fresh entry. -/
def insertU : List (String × Instance) → String → Instance → List (String × Instance)
  | [], k, v => [(k, v)]
  | p :: rest, k, v => if p.1 = k then (k, v) :: rest else p :: insertU rest k v

/-- `HashMap::get`. -/
def lookupU : List (String × Instance) → String → Option Instance
  | [], _ => none
  | p :: rest, k => if p.1 = k then some p.2 else lookupU rest k

/-- The key list of the Universe (each key once, by construction). -/
def keysU (m : List (String × Instance)) : List String :=
  m.map Prod.fst

/-- Lines 145–149: insert each fetched record keyed by its identity,
dropping records whose `instance_id` is `None`. -/
def insertRecords (m : List (String × Instance)) (records : List Instance) :
    List (String × Instance) :=
  records.foldl
    (fun m inst =>
      match inst.instanceId with
      | some id => insertU m id inst
      | none => m) m

/-- The Universe built from all fetched records in aggregation order. -/
def buildUniverse (records : List Instance) : List (String × Instance) :=
  insertRecords [] records

/-- Some-biased choice, used to express "the later occurrence wins". -/
def orO (a b : Option Instance) : Option Instance :=
  match a with
  | some x => some x
  | none => b

/-- The last record in `records` whose identity is `k` — the contribution
of "the last fetch in aggregation order". -/
def lastMatch (records : List Instance) (k : String) : Option Instance :=
  match records with
  | [] => none
  | r :: rest =>
    orO (lastMatch rest k) (if r.instanceId = some k then some r else none)

/-- The region × filter-group loop (lines 137–152) over the per-pair
fetch outcomes, in iteration order: the first failing fetch aborts the
whole aggregation (the `panic!(err)` of line 142); otherwise all fetched
records are concatenated in order. -/
def aggregateResults : List (Except String (List Instance)) → Except String (List Instance)
  | [] => Except.ok []
  | r :: rest =>
    match r with
    | Except.error e => Except.error e
    | Except.ok l => (aggregateResults rest).map (fun tl => l ++ tl)

/-- The detail of the first failing fetch, if any. -/
def firstFailure (results : List (Except String (List Instance))) : Option String :=
  results.findSome?
    (fun r => match r with | Except.error e => some e | Except.ok _ => none)

/-- Aggregation end to end: abort on the first fetch failure, otherwise
dedup all records into the Universe. -/
def runAggregation (results : List (Except String (List Instance))) :
    Except String (List (String × Instance)) :=
  (aggregateResults results).map buildUniverse

/-! ## Presenter (`main.rs` lines 154–196)

`all_instances.values()` is cloned for line generation (line 163) and for
index resolution (line 196); both clones replay the same iteration, so
the Display Index Table is one ordered snapshot `u : List Instance` used
for both. -/

/-- The `tag_map` lookup (lines 169–177 then line 180): tags with a
missing key or value are skipped, and a later tag with the same key
overwrites an earlier one (`HashMap::insert`). -/
def tagLookup (tags : List Tag) (k : String) : Option String :=
  tags.foldl
    (fun acc t =>
      match t.key, t.value with
      | some key, some v => if key = k then some v else acc
      | _, _ => acc) none

/-- The value the rendered line would show for display tag `k`:
`None` when the record has no tag list or the tag is absent. -/
def tagValueOf (inst : Instance) (k : String) : Option String :=
  match inst.tags with
  | some tags => tagLookup tags k
  | none => none

/-- Pad a string to width `n` with trailing spaces (Rust `{:19}` on a
string: left-aligned, space-filled, no truncation). -/
def padTo (n : Nat) (s : String) : String :=
  s ++ List.asString (List.replicate (n - s.length) ' ')

/-- The identity prefix of a line (lines 164–166): `format!("{:19}: ",
id)` when the record has an identity, nothing otherwise. -/
def idSegment (inst : Instance) : String :=
  match inst.instanceId with
  | some id => padTo 19 id ++ ": "
  | none => ""

/-- The tag portion of a line (lines 168–184): for each configured
display tag in order, append `tag=value ` when the record carries the
tag; a record with no tag list contributes nothing. -/
def lineTagSegment (displayTags : List String) (inst : Instance) : String :=
  match inst.tags with
  | none => ""
  | some tags =>
    displayTags.foldl
      (fun s d =>
        match tagLookup tags d with
        | some v => s ++ d ++ "=" ++ v ++ " "
        | none => s) ""

/-- One Presentation Line (lines 163–187, without the trailing `\n`). -/
def renderLine (displayTags : List String) (inst : Instance) : String :=
  idSegment inst ++ lineTagSegment displayTags inst

/-- The Presentation Lines: one per record of the snapshot, in order. -/
def presentationLines (u : List Instance) (displayTags : List String) : List String :=
  u.map (renderLine displayTags)

/-- The Display Index Table: the same ordered snapshot the lines were
rendered from (the cloned `values()` iteration of line 196). -/
def displayIndexTable (u : List Instance) : List Instance :=
  u

/-- Index resolution (line 196): `instances.clone().nth(i)`. -/
def resolveIndex (u : List Instance) (i : Nat) : Option Instance :=
  (displayIndexTable u).get? i

/-- Modelled from the spec's words for claim C1 only, NOT from the code:
"the tags of Display Index Table entry i restricted to the display-tag
list, in that list's order, formatted as `tag=value` with absent tags
omitted".  Used solely to compare against `lineTagSegment`. -/
def specTagRestriction (displayTags : List String) (inst : Instance) : List String :=
  displayTags.filterMap
    (fun d => (tagValueOf inst d).map (fun v => d ++ "=" ++ v))

/-- Joining rendered `tag=value` pieces, each followed by the single
space the renderer emits after a pair. -/
def joinSegs : List String → String
  | [] => ""
  | t :: ts => t ++ " " ++ joinSegs ts

/-! ## Selection and printing (`main.rs` lines 189–203) -/

/-- The address field the final print reads (lines 197–201). -/
def addressOf (publicIp : Bool) (inst : Instance) : Option String :=
  if publicIp then inst.publicIpAddress else inst.privateIpAddress

/-- The printing loop (lines 195–203) over the selector's returned
indices.  Result: the text written to stdout so far, and whether the
process panicked (the `.unwrap()` of line 198/200 on an absent address).
An index that resolves to no record is silently skipped (the `if let` of
line 196). -/
def printSelections (u : List Instance) (publicIp : Bool) :
    List Nat → String × Bool
  | [] => ("", false)
  | i :: rest =>
    match resolveIndex u i with
    | none => printSelections u publicIp rest
    | some inst =>
      match addressOf publicIp inst with
      | none => ("", true)
      | some a =>
        let (out, panicked) := printSelections u publicIp rest
        (a ++ out, panicked)

/-! ## Claim C4: group count and the implicit running filter -/

/-- C4: the Filter Spec Parser produces exactly one Filter Group per raw
filter string, exactly one group when no raw string is supplied, and
every produced group contains the implicit
`instance-state-name = [running]` filter. -/
theorem filter_group_count_and_running_filter :
    ∀ (strs : List String) (raw : Option (List String)) (g : List Filter),
      (parseFilters (some strs)).length = strs.length ∧
      (parseFilters none).length = 1 ∧
      (g ∈ parseFilters raw → runningFilter ∈ g) := by
  intro strs raw g
  refine ⟨by simp [parseFilters], rfl, ?_⟩
  intro hg
  cases raw with
  | none =>
    simp only [parseFilters, List.mem_singleton] at hg
    subst hg
    exact List.mem_singleton.mpr rfl
  | some l =>
    simp only [parseFilters, List.mem_map] at hg
    obtain ⟨s, _, rfl⟩ := hg
    exact List.mem_cons_self _ _

theorem filter_group_count_and_running_filter_witness :
    (parseFilters (some ["tag:Team=infra,platform", "x"])).length = 2 ∧
    runningFilter ∈ parseFilterString "tag:Team=infra,platform" :=
  ⟨(filter_group_count_and_running_filter ["tag:Team=infra,platform", "x"]
      (some ["tag:Team=infra,platform", "x"]) (parseFilterString "tag:Team=infra,platform")).1,
   (filter_group_count_and_running_filter ["tag:Team=infra,platform", "x"]
      (some ["tag:Team=infra,platform", "x"]) (parseFilterString "tag:Team=infra,platform")).2.2
     (by decide)⟩

/-! ## Claim C5: clause splitting at `=`

The code splits a clause on EVERY `=` and keeps only the second segment
as the value list, so text after a second `=` is discarded — it does not
all belong to the value list as the claim states. -/

/-- C5 counterexample: on the clause `a=b=c` the code yields values
`["b"]`, while the claim's reading ("all text after the first `=`
belongs to the value list") demands `["b=c"]`. -/
theorem clause_first_equals_counterexample :
    parseClause "a=b=c" = { name := some "a", values := some ["b"] } ∧
    specParseClause "a=b=c" = { name := some "a", values := some ["b=c"] } ∧
    parseClause "a=b=c" ≠ specParseClause "a=b=c" := by
  decide

/-- C5 amended: the first `=` splits the name from the value list, but
the value list is the comma-split of the text between the first and the
second `=` only (text from the second `=` on is discarded); a clause
with no `=` yields that name with no value constraint. -/
theorem clause_split_amended :
    ∀ (s : String),
      (splitStr '=' s = [s] →
        parseClause s = { name := some s, values := none }) ∧
      (∀ a b rest, splitStr '=' s = a :: b :: rest →
        parseClause s = { name := some a, values := some (splitStr ',' b) }) := by
  intro s
  constructor
  · intro h
    simp [parseClause, h]
  · intro a b rest h
    simp [parseClause, h]

theorem clause_split_amended_witness :
    parseClause "noequals" = { name := some "noequals", values := none } ∧
    parseClause "x=y,z=w" = { name := some "x", values := some ["y", "z"] } :=
  ⟨(clause_split_amended "noequals").1 (by decide),
   (clause_split_amended "x=y,z=w").2 "x" "y,z" ["w"] (by decide)⟩

/-! ## Claim C9: empty selection -/

/-- C9: when the selector returns zero indices, the printing loop writes
nothing to stdout and does not panic. -/
theorem empty_selection_no_output :
    ∀ (u : List Instance) (publicIp : Bool),
      printSelections u publicIp [] = ("", false) := by
  intro u publicIp
  rfl

/-! ## Claim C10: the address unwrap precondition -/

/-- C10: printing a selected in-range record is safe exactly when the
chosen address field is present: the flag picks the public or private
field, a present address is printed without panic, and an absent one
panics before anything is printed for that selection. -/
theorem address_unwrap_precondition :
    ∀ (u : List Instance) (publicIp : Bool) (i : Nat) (inst : Instance),
      (addressOf true inst = inst.publicIpAddress ∧
       addressOf false inst = inst.privateIpAddress) ∧
      (resolveIndex u i = some inst →
        (addressOf publicIp inst = none →
          printSelections u publicIp [i] = ("", true)) ∧
        (∀ a, addressOf publicIp inst = some a →
          printSelections u publicIp [i] = (a, false))) := by
  intro u publicIp i inst
  refine ⟨⟨rfl, rfl⟩, ?_⟩
  intro hres
  constructor
  · intro habs
    simp [printSelections, hres, habs]
  · intro a ha
    simp [printSelections, hres, ha]

theorem address_unwrap_precondition_witness :
    printSelections
      [{ instanceId := some "i-1", tags := none,
         publicIpAddress := none, privateIpAddress := some "10.0.0.1" }]
      true [0] = ("", true) ∧
    printSelections
      [{ instanceId := some "i-1", tags := none,
         publicIpAddress := none, privateIpAddress := some "10.0.0.1" }]
      false [0] = ("10.0.0.1", false) :=
  ⟨((address_unwrap_precondition
      [{ instanceId := some "i-1", tags := none,
         publicIpAddress := none, privateIpAddress := some "10.0.0.1" }]
      true 0
      { instanceId := some "i-1", tags := none,
        publicIpAddress := none, privateIpAddress := some "10.0.0.1" }).2
    (by decide)).1 (by decide),
   ((address_unwrap_precondition
      [{ instanceId := some "i-1", tags := none,
         publicIpAddress := none, privateIpAddress := some "10.0.0.1" }]
      false 0
      { instanceId := some "i-1", tags := none,
        publicIpAddress := none, privateIpAddress := some "10.0.0.1" }).2
    (by decide)).2 "10.0.0.1" (by decide)⟩

/-! ## Claim C6: out-of-range selector index

The claim says an out-of-range index fails with an `IndexOutOfRange`
error.  The code has no such error: `instances.clone().nth(i)` returns
`None` and the `if let` of line 196 silently skips the selection, so the
process prints nothing and exits normally. -/

/-- C6 counterexample: with a one-entry Display Index Table, index 1 is
out of range; resolution yields no record and the printing loop
completes with no output and no panic — a silent skip, not a failure. -/
theorem out_of_range_counterexample :
    resolveIndex
      [{ instanceId := some "i-1", tags := none,
         publicIpAddress := none, privateIpAddress := some "10.0.0.1" }] 1 = none ∧
    printSelections
      [{ instanceId := some "i-1", tags := none,
         publicIpAddress := none, privateIpAddress := some "10.0.0.1" }]
      false [1] = ("", false) := by
  decide

/-- C6 amended: an index at or beyond the Display Index Table's length
resolves to no record, and the printing loop silently skips it — no
output for that index, no panic, and no error of any kind. -/
theorem out_of_range_silent_skip :
    ∀ (u : List Instance) (i : Nat),
      (displayIndexTable u).length ≤ i →
      resolveIndex u i = none ∧
      ∀ publicIp, printSelections u publicIp [i] = ("", false) := by
  intro u i hi
  have hnone : resolveIndex u i = none := by
    simp only [resolveIndex, displayIndexTable] at hi ⊢
    exact List.get?_eq_none.mpr hi
  refine ⟨hnone, ?_⟩
  intro publicIp
  simp [printSelections, hnone]

theorem out_of_range_silent_skip_witness :
    resolveIndex
      [{ instanceId := some "i-1", tags := none,
         publicIpAddress := none, privateIpAddress := some "10.0.0.1" }] 5 = none ∧
    printSelections
      [{ instanceId := some "i-1", tags := none,
         publicIpAddress := none, privateIpAddress := some "10.0.0.1" }]
      true [5] = ("", false) :=
  ⟨(out_of_range_silent_skip
      [{ instanceId := some "i-1", tags := none,
         publicIpAddress := none, privateIpAddress := some "10.0.0.1" }] 5 (by decide)).1,
   (out_of_range_silent_skip
      [{ instanceId := some "i-1", tags := none,
         publicIpAddress := none, privateIpAddress := some "10.0.0.1" }] 5 (by decide)).2 true⟩

/-! ## Claim C7: fail-fast aggregation -/

/-- Any failing fetch forces `aggregateResults` to abort with the first
failure in iteration order. -/
theorem aggregateResults_error_of_mem :
    ∀ (results : List (Except String (List Instance))) (e0 : String),
      Except.error e0 ∈ results →
      ∃ e, aggregateResults results = Except.error e ∧ firstFailure results = some e := by
  intro results e0
  induction results with
  | nil => intro h; cases h
  | cons r rest ih =>
    intro h
    cases r with
    | error e =>
      exact ⟨e, rfl, by simp [firstFailure, List.findSome?]⟩
    | ok l =>
      have hmem : Except.error e0 ∈ rest := by
        cases h with
        | tail _ h' => exact h'
      obtain ⟨e, h1, h2⟩ := ih hmem
      refine ⟨e, ?_, ?_⟩
      · simp [aggregateResults, h1, Except.map]
      · simpa [firstFailure, List.findSome?] using h2

/-- C7: if any single fetch in the (region × filter-group) iteration
fails, the whole aggregation aborts with the first such failure, and no
Instance Universe is produced. -/
theorem aggregation_fail_fast :
    ∀ (results : List (Except String (List Instance))) (e0 : String),
      Except.error e0 ∈ results →
      (∃ e, runAggregation results = Except.error e ∧ firstFailure results = some e) ∧
      ∀ univ, runAggregation results ≠ Except.ok univ := by
  intro results e0 h
  obtain ⟨e, h1, h2⟩ := aggregateResults_error_of_mem results e0 h
  refine ⟨⟨e, ?_, h2⟩, ?_⟩
  · simp [runAggregation, h1, Except.map]
  · intro univ hcon
    rw [runAggregation, h1] at hcon
    cases hcon

theorem aggregation_fail_fast_witness :
    (∃ e, runAggregation
        [Except.ok [{ instanceId := some "i-1", tags := none,
                      publicIpAddress := none, privateIpAddress := some "10.0.0.1" }],
         Except.error "throttled"] = Except.error e ∧
      firstFailure
        [Except.ok [{ instanceId := some "i-1", tags := none,
                      publicIpAddress := none, privateIpAddress := some "10.0.0.1" }],
         Except.error "throttled"] = some e) ∧
    ∀ univ, runAggregation
        [Except.ok [{ instanceId := some "i-1", tags := none,
                      publicIpAddress := none, privateIpAddress := some "10.0.0.1" }],
         Except.error "throttled"] ≠ Except.ok univ :=
  aggregation_fail_fast
    [Except.ok [{ instanceId := some "i-1", tags := none,
                  publicIpAddress := none, privateIpAddress := some "10.0.0.1" }],
     Except.error "throttled"] "throttled"
    (List.mem_cons_of_mem _ (List.mem_cons_self _ _))

/-! ## Claim C8: fetch error classification -/

/-- A pagination-loop failure always comes from one of the provider's
responses. -/
theorem fetchLoop_error_mem :
    ∀ (responses : List (Except String Page)) (d : String),
      fetchLoop responses = Except.error d → Except.error d ∈ responses := by
  intro responses d
  induction responses with
  | nil => intro h; cases h
  | cons r rest ih =>
    intro h
    cases r with
    | error e =>
      cases h
      exact List.mem_cons_self _ _
    | ok page =>
      cases htok : page.nextToken with
      | none => rw [fetchLoop, htok] at h; cases h
      | some t =>
        rw [fetchLoop, htok] at h
        cases hrec : fetchLoop rest with
        | error e' =>
          rw [hrec] at h
          cases h
          exact List.mem_cons_of_mem _ (ih hrec)
        | ok l => rw [hrec] at h; cases h

/-- C8: `get_instances` fails with `invalidRegion` exactly when the
region name does not resolve; it fails with `queryFailed d` exactly when
the region resolved and some issued page request failed with detail `d`
(which is then one of the provider's responses); and it succeeds exactly
when the region resolved and every issued page request succeeded. -/
theorem fetch_error_classification :
    ∀ (regionOk : Bool) (responses : List (Except String Page)),
      (getInstances regionOk responses = Except.error FetchError.invalidRegion ↔
        regionOk = false) ∧
      (∀ d, getInstances regionOk responses = Except.error (FetchError.queryFailed d) ↔
        (regionOk = true ∧ fetchLoop responses = Except.error d)) ∧
      (∀ l, getInstances regionOk responses = Except.ok l ↔
        (regionOk = true ∧ fetchLoop responses = Except.ok l)) ∧
      (∀ d, fetchLoop responses = Except.error d → Except.error d ∈ responses) := by
  intro regionOk responses
  refine ⟨?_, ?_, ?_, fetchLoop_error_mem responses⟩
  · cases regionOk with
    | false => simp [getInstances]
    | true =>
      cases h : fetchLoop responses with
      | error d => simp [getInstances, h]
      | ok l => simp [getInstances, h]
  · intro d
    cases regionOk with
    | false => simp [getInstances]
    | true =>
      cases h : fetchLoop responses with
      | error d' => simp [getInstances, h]
      | ok l => simp [getInstances, h]
  · intro l
    cases regionOk with
    | false => simp [getInstances]
    | true =>
      cases h : fetchLoop responses with
      | error d' => simp [getInstances, h]
      | ok l' => simp [getInstances, h, eq_comm]

theorem fetch_error_classification_witness :
    getInstances false [] = Except.error FetchError.invalidRegion ∧
    getInstances true [Except.error "AuthFailure"] =
      Except.error (FetchError.queryFailed "AuthFailure") ∧
    getInstances true [Except.ok { reservations := none, nextToken := none }] =
      Except.ok [] :=
  ⟨(fetch_error_classification false []).1.mpr rfl,
   ((fetch_error_classification true [Except.error "AuthFailure"]).2.1 "AuthFailure").mpr
     ⟨rfl, rfl⟩,
   ((fetch_error_classification true
       [Except.ok { reservations := none, nextToken := none }]).2.2.1 []).mpr
     ⟨rfl, rfl⟩⟩

/-! ## Claim C2: pagination is exhaustive and exact

The provider serves `pages` in request order; every non-final page
carries a continuation token and the final page carries none.  The loop
then returns the concatenation of all flattened pages and issues exactly
one request per page. -/

/-- Loop step: a successful page with a continuation token contributes
its instances and the loop re-enters. -/
theorem fetchLoop_cons_some (p : Page) (t : String) (ht : p.nextToken = some t)
    (rest : List (Except String Page)) :
    fetchLoop (Except.ok p :: rest) =
      (fetchLoop rest).map (fun tl => flattenPage p ++ tl) := by
  simp [fetchLoop, ht]

/-- Loop step: a successful page without a continuation token ends the
loop with its instances. -/
theorem fetchLoop_cons_none (p : Page) (ht : p.nextToken = none)
    (rest : List (Except String Page)) :
    fetchLoop (Except.ok p :: rest) = Except.ok (flattenPage p) := by
  simp [fetchLoop, ht]

/-- Request counting steps, mirroring the loop. -/
theorem requestCount_cons_some (p : Page) (t : String) (ht : p.nextToken = some t)
    (rest : List (Except String Page)) :
    requestCount (Except.ok p :: rest) = 1 + requestCount rest := by
  simp [requestCount, ht]

theorem requestCount_cons_none (p : Page) (ht : p.nextToken = none)
    (rest : List (Except String Page)) :
    requestCount (Except.ok p :: rest) = 1 := by
  simp [requestCount, ht]

/-- C2: for a well-formed page sequence (every page but the last has a
continuation token, the last has none), `get_instances`'s loop returns
exactly the in-order concatenation of the pages' flattened instance
lists and issues exactly one request per page.  With a single page and
no token this is: one request, then stop. -/
theorem pagination_exact_concatenation :
    ∀ (pages : List Page),
      pages ≠ [] →
      (∀ p ∈ pages.dropLast, p.nextToken.isSome) →
      (∀ p, pages.getLast? = some p → p.nextToken = none) →
      fetchLoop (pages.map Except.ok) = Except.ok (pages.flatMap flattenPage) ∧
      requestCount (pages.map Except.ok) = pages.length := by
  intro pages
  induction pages with
  | nil => intro h; exact absurd rfl h
  | cons p rest ih =>
    intro _ hmid hlast
    cases rest with
    | nil =>
      have hnone : p.nextToken = none := hlast p rfl
      exact ⟨by rw [List.map_cons, List.map_nil, fetchLoop_cons_none p hnone]; simp,
             by rw [List.map_cons, List.map_nil, requestCount_cons_none p hnone]; rfl⟩
    | cons q rest2 =>
      have hsome : p.nextToken.isSome := by
        refine hmid p ?_
        rw [List.dropLast_cons₂]
        exact List.mem_cons_self _ _
      obtain ⟨t, ht⟩ := Option.isSome_iff_exists.mp hsome
      have ih' := ih (List.cons_ne_nil q rest2)
        (fun x hx => hmid x (by rw [List.dropLast_cons₂]; exact List.mem_cons_of_mem _ hx))
        (fun x hx => hlast x (by rw [List.getLast?_cons_cons]; exact hx))
      constructor
      · rw [List.map_cons, fetchLoop_cons_some p t ht, ih'.1]
        simp [Except.map]
      · rw [List.map_cons, requestCount_cons_some p t ht, ih'.2]
        simp [Nat.add_comm]

theorem pagination_exact_concatenation_witness :
    fetchLoop
      ([{ reservations :=
            some [{ instances :=
                      some [{ instanceId := some "i-1", tags := none,
                              publicIpAddress := none, privateIpAddress := some "10.0.0.1" }] },
                  { instances := none }]
          nextToken := some "t1" },
        { reservations :=
            some [{ instances :=
                      some [{ instanceId := some "i-2", tags := none,
                              publicIpAddress := some "1.2.3.4", privateIpAddress := none },
                            { instanceId := none, tags := none,
                              publicIpAddress := none, privateIpAddress := none }] }]
          nextToken := none }].map Except.ok) =
      Except.ok
        [{ instanceId := some "i-1", tags := none,
           publicIpAddress := none, privateIpAddress := some "10.0.0.1" },
         { instanceId := some "i-2", tags := none,
           publicIpAddress := some "1.2.3.4", privateIpAddress := none },
         { instanceId := none, tags := none,
           publicIpAddress := none, privateIpAddress := none }] ∧
    requestCount
      ([{ reservations :=
            some [{ instances :=
                      some [{ instanceId := some "i-1", tags := none,
                              publicIpAddress := none, privateIpAddress := some "10.0.0.1" }] },
                  { instances := none }]
          nextToken := some "t1" },
        { reservations :=
            some [{ instances :=
                      some [{ instanceId := some "i-2", tags := none,
                              publicIpAddress := some "1.2.3.4", privateIpAddress := none },
                            { instanceId := none, tags := none,
                              publicIpAddress := none, privateIpAddress := none }] }]
          nextToken := none }].map Except.ok) = 2 := by
  have h := pagination_exact_concatenation
    [{ reservations :=
         some [{ instances :=
                   some [{ instanceId := some "i-1", tags := none,
                           publicIpAddress := none, privateIpAddress := some "10.0.0.1" }] },
               { instances := none }]
       nextToken := some "t1" },
     { reservations :=
         some [{ instances :=
                   some [{ instanceId := some "i-2", tags := none,
                           publicIpAddress := some "1.2.3.4", privateIpAddress := none },
                         { instanceId := none, tags := none,
                           publicIpAddress := none, privateIpAddress := none }] }]
       nextToken := none }]
    (by decide) (by decide)
    (by
      intro x hx
      simp only [List.getLast?_cons_cons] at hx
      have hx' : x =
          { reservations :=
              some [{ instances :=
                        some [{ instanceId := some "i-2", tags := none,
                                publicIpAddress := some "1.2.3.4", privateIpAddress := none },
                              { instanceId := none, tags := none,
                                publicIpAddress := none, privateIpAddress := none }] }]
            nextToken := none } := by
        cases hx
        rfl
      rw [hx'])
  exact h

/-! ## Claim C3: deduplication by identity, last write wins -/

theorem orO_none_right (a : Option Instance) : orO a none = a := by
  cases a <;> rfl

theorem orO_assoc (a b c : Option Instance) :
    orO (orO a b) c = orO a (orO b c) := by
  cases a <;> rfl

/-- Inserting a key makes it the key's binding. -/
theorem lookupU_insertU_self :
    ∀ (m : List (String × Instance)) (k : String) (v : Instance),
      lookupU (insertU m k v) k = some v := by
  intro m k v
  induction m with
  | nil => simp [insertU, lookupU]
  | cons p rest ih =>
    by_cases h : p.1 = k
    · simp [insertU, lookupU, h]
    · simp [insertU, lookupU, h, ih]

/-- Inserting a key leaves every other key's binding unchanged. -/
theorem lookupU_insertU_ne :
    ∀ (m : List (String × Instance)) (k k' : String) (v : Instance),
      k' ≠ k → lookupU (insertU m k v) k' = lookupU m k' := by
  intro m k k' v hne
  induction m with
  | nil => simp [insertU, lookupU, Ne.symm hne]
  | cons p rest ih =>
    by_cases h : p.1 = k
    · subst h
      simp [insertU, lookupU, Ne.symm hne]
    · simp [insertU, lookupU, h, ih]

/-- Inserting either reuses an existing key slot or appends the new key. -/
theorem keysU_insertU :
    ∀ (m : List (String × Instance)) (k : String) (v : Instance),
      keysU (insertU m k v) =
        if k ∈ keysU m then keysU m else keysU m ++ [k] := by
  intro m k v
  induction m with
  | nil => simp [insertU, keysU]
  | cons p rest ih =>
    by_cases h : p.1 = k
    · subst h
      simp [insertU, keysU]
    · simp only [insertU, if_neg h, keysU, List.map_cons, List.mem_cons]
      rw [show keysU (insertU rest k v) = List.map Prod.fst (insertU rest k v) from rfl] at ih
      rw [ih]
      by_cases hmem : k ∈ List.map Prod.fst rest
      · simp [keysU, hmem]
      · simp [keysU, hmem, Ne.symm h]

/-- Insertion never duplicates a key. -/
theorem nodup_keysU_insertU :
    ∀ (m : List (String × Instance)) (k : String) (v : Instance),
      (keysU m).Nodup → (keysU (insertU m k v)).Nodup := by
  intro m k v h
  rw [keysU_insertU]
  by_cases hmem : k ∈ keysU m
  · simpa [hmem] using h
  · rw [if_neg hmem, ← List.concat_eq_append]
    exact List.Nodup.concat hmem h

/-- An entry of the map after an insert is an old entry or the new one. -/
theorem mem_insertU :
    ∀ (m : List (String × Instance)) (k : String) (v : Instance)
      (p : String × Instance),
      p ∈ insertU m k v → p ∈ m ∨ p = (k, v) := by
  intro m k v p
  induction m with
  | nil =>
    intro h
    simp only [insertU, List.mem_singleton] at h
    exact Or.inr h
  | cons q rest ih =>
    intro h
    by_cases hq : q.1 = k
    · rw [insertU, if_pos hq] at h
      cases h with
      | head => exact Or.inr rfl
      | tail _ h' => exact Or.inl (List.mem_cons_of_mem _ h')
    · rw [insertU, if_neg hq] at h
      cases h with
      | head => exact Or.inl (List.mem_cons_self _ _)
      | tail _ h' =>
        cases ih h' with
        | inl hm => exact Or.inl (List.mem_cons_of_mem _ hm)
        | inr he => exact Or.inr he

/-- One aggregation step, seen through `lookupU`: a record with identity
`k` becomes `k`'s binding, any other record leaves `k` alone. -/
theorem lookupU_insert_step :
    ∀ (m : List (String × Instance)) (r : Instance) (k : String),
      lookupU
        (match r.instanceId with
         | some id => insertU m id r
         | none => m) k =
      orO (if r.instanceId = some k then some r else none) (lookupU m k) := by
  intro m r k
  cases hid : r.instanceId with
  | none => simp [orO]
  | some id =>
    by_cases hk : id = k
    · subst hk
      simp [lookupU_insertU_self, orO]
    · have : ¬ (some id = some k) := fun hc => hk (Option.some_inj.mp hc)
      simp only [this, if_neg]
      rw [lookupU_insertU_ne m id k r (Ne.symm hk)]
      simp [orO]

/-- Folding records into the map resolves each key to the last matching
record, falling back to the prior binding. -/
theorem lookupU_insertRecords :
    ∀ (records : List Instance) (m : List (String × Instance)) (k : String),
      lookupU (insertRecords m records) k =
        orO (lastMatch records k) (lookupU m k) := by
  intro records
  induction records with
  | nil => intro m k; simp [insertRecords, lastMatch, orO]
  | cons r rest ih =>
    intro m k
    have hstep : insertRecords m (r :: rest) =
        insertRecords
          (match r.instanceId with
           | some id => insertU m id r
           | none => m) rest := by
      simp [insertRecords]
    rw [hstep, ih, lookupU_insert_step, lastMatch, orO_assoc]

/-- Keys stay duplicate-free through the whole aggregation. -/
theorem nodup_keysU_insertRecords :
    ∀ (records : List Instance) (m : List (String × Instance)),
      (keysU m).Nodup → (keysU (insertRecords m records)).Nodup := by
  intro records
  induction records with
  | nil => intro m h; simpa [insertRecords] using h
  | cons r rest ih =>
    intro m h
    have hstep : insertRecords m (r :: rest) =
        insertRecords
          (match r.instanceId with
           | some id => insertU m id r
           | none => m) rest := by
      simp [insertRecords]
    rw [hstep]
    refine ih _ ?_
    cases r.instanceId with
    | none => exact h
    | some id => exact nodup_keysU_insertU m id r h

/-- Every entry of the map stores a record under that record's own
identity. -/
theorem entries_own_id_insertRecords :
    ∀ (records : List Instance) (m : List (String × Instance)),
      (∀ p ∈ m, p.2.instanceId = some p.1) →
      ∀ p ∈ insertRecords m records, p.2.instanceId = some p.1 := by
  intro records
  induction records with
  | nil =>
    intro m h p hp
    rw [insertRecords, List.foldl_nil] at hp
    exact h p hp
  | cons r rest ih =>
    intro m h p hp
    have hstep : insertRecords m (r :: rest) =
        insertRecords
          (match r.instanceId with
           | some id => insertU m id r
           | none => m) rest := by
      simp [insertRecords]
    rw [hstep] at hp
    refine ih _ ?_ p hp
    intro q hq
    cases hid : r.instanceId with
    | none =>
      rw [hid] at hq
      exact h q hq
    | some id =>
      rw [hid] at hq
      cases mem_insertU m id r q hq with
      | inl hm => exact h q hm
      | inr he => rw [he]; exact hid

/-- C3: the Universe built from all fetched records (in aggregation
order) has duplicate-free keys, binds each identity to the last record
carrying it (so an identity absent from every record is absent from the
Universe), and every stored entry carries the identity it is keyed by —
records with no identity are dropped. -/
theorem universe_dedup_last_wins :
    ∀ (records : List Instance) (k : String),
      (keysU (buildUniverse records)).Nodup ∧
      lookupU (buildUniverse records) k = lastMatch records k ∧
      (∀ p ∈ buildUniverse records, p.2.instanceId = some p.1) := by
  intro records k
  refine ⟨?_, ?_, ?_⟩
  · exact nodup_keysU_insertRecords records [] List.nodup_nil
  · rw [buildUniverse, lookupU_insertRecords]
    exact orO_none_right _
  · exact entries_own_id_insertRecords records []
      (fun p hp => absurd hp (List.not_mem_nil p))

theorem universe_dedup_last_wins_witness :
    lookupU
      (buildUniverse
        [{ instanceId := some "i-2", tags := some [{ key := some "Name", value := some "web2" }],
           publicIpAddress := none, privateIpAddress := some "10.0.0.2" },
         { instanceId := none, tags := none,
           publicIpAddress := none, privateIpAddress := none },
         { instanceId := some "i-2", tags := some [{ key := some "Name", value := some "web2-updated" }],
           publicIpAddress := none, privateIpAddress := some "10.0.9.9" }]) "i-2" =
      some { instanceId := some "i-2",
             tags := some [{ key := some "Name", value := some "web2-updated" }],
             publicIpAddress := none, privateIpAddress := some "10.0.9.9" } ∧
    (keysU
      (buildUniverse
        [{ instanceId := some "i-2", tags := some [{ key := some "Name", value := some "web2" }],
           publicIpAddress := none, privateIpAddress := some "10.0.0.2" },
         { instanceId := none, tags := none,
           publicIpAddress := none, privateIpAddress := none },
         { instanceId := some "i-2", tags := some [{ key := some "Name", value := some "web2-updated" }],
           publicIpAddress := none, privateIpAddress := some "10.0.9.9" }])).Nodup ∧
    ({ instanceId := some "i-2",
       tags := some [{ key := some "Name", value := some "web2-updated" }],
       publicIpAddress := none, privateIpAddress := some "10.0.9.9" } : Instance).instanceId =
      some "i-2" := by
  have h := universe_dedup_last_wins
    [{ instanceId := some "i-2", tags := some [{ key := some "Name", value := some "web2" }],
       publicIpAddress := none, privateIpAddress := some "10.0.0.2" },
     { instanceId := none, tags := none,
       publicIpAddress := none, privateIpAddress := none },
     { instanceId := some "i-2", tags := some [{ key := some "Name", value := some "web2-updated" }],
       publicIpAddress := none, privateIpAddress := some "10.0.9.9" }] "i-2"
  refine ⟨h.2.1.trans (by decide), h.1, ?_⟩
  exact h.2.2
    ("i-2",
     { instanceId := some "i-2",
       tags := some [{ key := some "Name", value := some "web2-updated" }],
       publicIpAddress := none, privateIpAddress := some "10.0.9.9" })
    (by decide)

/-! ## Claim C1: lines and index table are one snapshot -/

/-- The renderer's fold over the display-tag list accumulates exactly
the joined `tag=value` pieces of the present tags, in list order. -/
theorem lineTagSegment_foldl (tags : List Tag) :
    ∀ (dts : List String) (s : String),
      dts.foldl
        (fun s d =>
          match tagLookup tags d with
          | some v => s ++ d ++ "=" ++ v ++ " "
          | none => s) s
      = s ++ joinSegs
          (dts.filterMap (fun d => (tagLookup tags d).map (fun v => d ++ "=" ++ v))) := by
  intro dts
  induction dts with
  | nil => intro s; simp [joinSegs]
  | cons d ds ih =>
    intro s
    cases h : tagLookup tags d with
    | none =>
      simp only [List.foldl_cons]
      simp only [h]
      rw [ih]
      simp only [List.filterMap_cons, h, Option.map_none']
    | some v =>
      simp only [List.foldl_cons]
      simp only [h]
      rw [ih]
      simp only [List.filterMap_cons, h, Option.map_some']
      rw [joinSegs]
      simp [String.append_assoc]

/-- The code's tag segment is the spec's restriction of the record's
tags to the display list, rendered in order. -/
theorem lineTagSegment_eq_spec :
    ∀ (dts : List String) (inst : Instance),
      lineTagSegment dts inst = joinSegs (specTagRestriction dts inst) := by
  intro dts inst
  cases htags : inst.tags with
  | none =>
    have hnil : dts.filterMap (fun _ => (none : Option String)) = [] := by
      induction dts with
      | nil => rfl
      | cons d ds ih => simp [List.filterMap_cons, ih]
    simp [lineTagSegment, htags, specTagRestriction, tagValueOf, hnil, joinSegs]
  | some tags =>
    simp only [lineTagSegment, htags]
    rw [lineTagSegment_foldl tags dts ""]
    simp [specTagRestriction, tagValueOf, htags]

/-- C1: the Presentation Lines and the Display Index Table have the
same length; for every in-range index `i`, resolution returns the
record at entry `i`, and line `i` is that same record's identity prefix
followed by exactly its tags restricted to the display-tag list, in
list order, `tag=value`-formatted with absent tags omitted. -/
theorem presenter_lines_match_table :
    ∀ (u : List Instance) (dts : List String) (i : Nat),
      i < (presentationLines u dts).length →
      (presentationLines u dts).length = (displayIndexTable u).length ∧
      ∃ inst,
        resolveIndex u i = some inst ∧
        (presentationLines u dts).get? i =
          some (idSegment inst ++ joinSegs (specTagRestriction dts inst)) := by
  intro u dts i hi
  have hlen : (presentationLines u dts).length = u.length := by
    simp [presentationLines]
  have hiu : i < u.length := hlen ▸ hi
  refine ⟨by simp [presentationLines, displayIndexTable], ?_⟩
  refine ⟨u.get ⟨i, hiu⟩, ?_, ?_⟩
  · rw [resolveIndex, displayIndexTable]
    exact List.get?_eq_get hiu
  · rw [presentationLines, List.get?_map, List.get?_eq_get hiu]
    simp only [Option.map_some']
    rw [renderLine, lineTagSegment_eq_spec]

theorem presenter_lines_match_table_witness :
    (presentationLines
      [{ instanceId := some "i-0abc", tags :=
           some [{ key := some "Name", value := some "web1" },
                 { key := some "Env", value := some "prod" },
                 { key := some "Name", value := some "web1-renamed" },
                 { key := none, value := some "ignored" }],
         publicIpAddress := none, privateIpAddress := some "10.0.0.1" }]
      ["Name", "Env", "Team"]).length =
      (displayIndexTable
        [{ instanceId := some "i-0abc", tags :=
             some [{ key := some "Name", value := some "web1" },
                   { key := some "Env", value := some "prod" },
                   { key := some "Name", value := some "web1-renamed" },
                   { key := none, value := some "ignored" }],
           publicIpAddress := none, privateIpAddress := some "10.0.0.1" }]).length ∧
    ∃ inst,
      resolveIndex
        [{ instanceId := some "i-0abc", tags :=
             some [{ key := some "Name", value := some "web1" },
                   { key := some "Env", value := some "prod" },
                   { key := some "Name", value := some "web1-renamed" },
                   { key := none, value := some "ignored" }],
           publicIpAddress := none, privateIpAddress := some "10.0.0.1" }] 0 = some inst ∧
      (presentationLines
        [{ instanceId := some "i-0abc", tags :=
             some [{ key := some "Name", value := some "web1" },
                   { key := some "Env", value := some "prod" },
                   { key := some "Name", value := some "web1-renamed" },
                   { key := none, value := some "ignored" }],
           publicIpAddress := none, privateIpAddress := some "10.0.0.1" }]
        ["Name", "Env", "Team"]).get? 0 =
        some (idSegment inst ++ joinSegs (specTagRestriction ["Name", "Env", "Team"] inst)) :=
  presenter_lines_match_table
    [{ instanceId := some "i-0abc", tags :=
         some [{ key := some "Name", value := some "web1" },
               { key := some "Env", value := some "prod" },
               { key := some "Name", value := some "web1-renamed" },
               { key := none, value := some "ignored" }],
       publicIpAddress := none, privateIpAddress := some "10.0.0.1" }]
    ["Name", "Env", "Team"] 0 (by decide)

end Ec2Ip
